import Mathlib

/-
Verification of the migrator CLI's core behaviors against its specification.

The TypeScript source is shallowly embedded as follows.  Every awaited
asynchronous unit of work (a hook, a script's up/down step, a resource
factory/destructor, an engine invocation) is modelled as an `Action`: the
ordered list of observable events it emits when run, together with its
settlement (`Except.ok` for a fulfilled promise, `Except.error` carrying the
thrown error for a rejected one).  Sequencing combinators mirror the
JavaScript control-flow constructs exactly:

  * `andThen`    — `await a; await b` (a rejection short-circuits);
  * `parAll`     — `await Promise.all([a, b])`: both actions are started, so
                   both event lists occur; the combined promise rejects when
                   either rejects.  When both reject, the real tie is decided
                   by wall-clock timing; the model deterministically keeps the
                   first action's error, and no theorem below depends on the
                   both-reject tie;
  * `tryFinally` — `try { body } finally { fin }`: `fin` always runs; per
                   JavaScript semantics an exception thrown by `fin` replaces
                   any in-flight exception from `body`;
  * `swallow`    — `await a.catch(() => \x7b\x7d)`;
  * `optAct`     — optional-chaining call `f?.()` of a possibly-absent member.

Resource values (contexts, storage handles) are abstracted away: a
destructor always receives the value its factory produced, so only the
event/settlement behavior matters to the properties proved here.
-/

deriving instance DecidableEq for Except

namespace Migrator

structure Action where
  events : List String
  result : Except String Unit
deriving DecidableEq

def noopAct : Action := ⟨[], Except.ok ()⟩

def andThen (a b : Action) : Action :=
  match a.result with
  | Except.error _ => a
  | Except.ok _ => ⟨a.events ++ b.events, b.result⟩

def parAll (a b : Action) : Action :=
  ⟨a.events ++ b.events,
    match a.result with
    | Except.error e => Except.error e
    | Except.ok _ => b.result⟩

def tryFinally (body fin : Action) : Action :=
  ⟨body.events ++ fin.events,
    match fin.result with
    | Except.error e => Except.error e
    | Except.ok _ => body.result⟩

def swallow (a : Action) : Action := ⟨a.events, Except.ok ()⟩

def optAct : Option Action → Action
  | none => noopAct
  | some a => a

/-
Hook-wrapping adapter, from `wrapMigration` (src/unnamed/part_000).

  export function wrapMigration(hooks, migration) {
    return {
      ...migration,
      async up(params) {
        await hooks.runBefore?.();
        await migration.up(params);
        await hooks.runAfter?.();
      },
      ...(migration.down
        ? { async down(params) {
              await hooks.runBefore?.();
              await migration.down!(params);
              await hooks.runAfter?.();
            } }
        : {}),
    };
  }

A `RunnableMigration` is modelled by its `up` action and optional `down`
action; the other spread-copied fields (name, path) play no role in the
claims and are omitted.
-/

structure Hooks where
  runBefore : Option Action
  runAfter : Option Action

structure Migration where
  up : Action
  down : Option Action

def hookSandwich (h : Hooks) (step : Action) : Action :=
  andThen (optAct h.runBefore) (andThen step (optAct h.runAfter))

def wrapMigration (h : Hooks) (m : Migration) : Migration :=
  { up := hookSandwich h m.up
    down :=
      match m.down with
      | some d => some (hookSandwich h d)
      | none => none }

/-- C2: calling `up` on `wrapMigration hooks m` awaits `runBefore` before
`m.up` is attempted; if `m.up` rejects, the rejection propagates and
`runAfter` is not invoked (the trace stops at `m.up`'s events); if `m.up`
succeeds, `runBefore`, `m.up` and `runAfter` each run exactly once, in that
order, each completing before the next starts.  The same holds for `down`
when `m.down` exists. -/
theorem wrapMigration_hook_order (h : Hooks) (m : Migration)
    (bE : List String) (aAct : Action)
    (hb : h.runBefore = some ⟨bE, Except.ok ()⟩)
    (ha : h.runAfter = some aAct) :
    ((∀ e, m.up.result = Except.error e →
        (wrapMigration h m).up = ⟨bE ++ m.up.events, Except.error e⟩)
     ∧ (m.up.result = Except.ok () →
        (wrapMigration h m).up = ⟨bE ++ m.up.events ++ aAct.events, aAct.result⟩))
    ∧ (∀ d, m.down = some d →
        ((∀ e, d.result = Except.error e →
            (wrapMigration h m).down = some ⟨bE ++ d.events, Except.error e⟩)
         ∧ (d.result = Except.ok () →
            (wrapMigration h m).down =
              some ⟨bE ++ d.events ++ aAct.events, aAct.result⟩))) := by
  constructor
  · constructor
    · intro e he
      simp [wrapMigration, hookSandwich, hb, ha, optAct, andThen, he]
    · intro he
      simp [wrapMigration, hookSandwich, hb, ha, optAct, andThen, he,
        List.append_assoc]
  · intro d hd
    constructor
    · intro e he
      simp [wrapMigration, hookSandwich, hb, ha, optAct, andThen, hd, he]
    · intro he
      simp [wrapMigration, hookSandwich, hb, ha, optAct, andThen, hd, he,
        List.append_assoc]

/-- C2 witness: concrete hooks and migration exercising both the failing-up
and the succeeding-up branches of `wrapMigration_hook_order`. -/
theorem wrapMigration_hook_order_witness :
    (wrapMigration ⟨some ⟨["before"], Except.ok ()⟩, some ⟨["after"], Except.ok ()⟩⟩
        ⟨⟨["up"], Except.error "boom"⟩, some ⟨["down"], Except.ok ()⟩⟩).up
      = ⟨["before", "up"], Except.error "boom"⟩
    ∧ (wrapMigration ⟨some ⟨["before"], Except.ok ()⟩, some ⟨["after"], Except.ok ()⟩⟩
        ⟨⟨["up"], Except.error "boom"⟩, some ⟨["down"], Except.ok ()⟩⟩).down
      = some ⟨["before", "down", "after"], Except.ok ()⟩ := by
  refine ⟨?_, ?_⟩
  · exact (wrapMigration_hook_order _ _ ["before"] ⟨["after"], Except.ok ()⟩
      rfl rfl).1.1 "boom" rfl
  · exact ((wrapMigration_hook_order _ _ ["before"] ⟨["after"], Except.ok ()⟩
      rfl rfl).2 ⟨["down"], Except.ok ()⟩ rfl).2 rfl

/-- C8: the wrapped migration has a `down` member exactly when the underlying
migration does — `wrapMigration` never fabricates reversibility and never
drops it. -/
theorem wrapMigration_down_iff (h : Hooks) (m : Migration) :
    (wrapMigration h m).down.isSome = m.down.isSome := by
  cases hd : m.down <;> simp [wrapMigration, hd]

/-
Multi-database orchestrator.  A `DbModel` is one entry of the loaded
configuration map (a `DatabaseConfig`); its behavioral members are the
externally supplied async operations, each modelled as an `Action` (or an
environment-indexed family of them).  `up` is the external engine invocation
`migrator.up(...)` for this database: script discovery (glob + `shouldRun`
filter) happens lazily inside that call via the `migrations` callback, so it
is part of the engine action here.  `destroyStorage` is optional, matching
the `destroyStorage?` member of `DatabaseConfig`.
-/

inductive Target
  | remaining
  | next
  | only
  | until_
deriving DecidableEq

inductive UpOptions
  | all
  | step (n : Nat)
  | migrations (names : List String)
  | to (name : String)
deriving DecidableEq

structure DbModel where
  supportedEnvironments : List String
  defaultEnvironment : Option String
  supportedScriptFormats : List String
  defaultScriptFormat : String
  createContext : String → Action
  createStorage : String → Action
  up : UpOptions → Action
  destroyContext : Action
  destroyStorage : Option Action
  dropDbAndDisconnect : String → Action
  prepareDbAndDisconnect : String → Action

/-
The `switch (target)` dispatch of the apply-scripts handler (src/src/cli.ts):
`remaining` → `migrator.up()`, `next` → `migrator.up({ step: 1 })`,
`only` → `migrator.up({ migrations: [name!] })`, `until` →
`migrator.up({ to: name! })`.  The `name!` non-null assertions are justified
by the builder's check; absent names are modelled by `getD ""`.
-/
def runTarget (db : DbModel) (target : Target) (nameOpt : Option String) : Action :=
  match target with
  | Target.remaining => db.up UpOptions.all
  | Target.next => db.up (UpOptions.step 1)
  | Target.only => db.up (UpOptions.migrations [nameOpt.getD ""])
  | Target.until_ => db.up (UpOptions.to (nameOpt.getD ""))

/-
The finally block of the apply-scripts handler:

    await db.destroyContext(context);
    if ("destroyStorage" in db) {
      await db.destroyStorage?.(storage);
    }
-/
def teardown (db : DbModel) : Action :=
  andThen db.destroyContext (optAct db.destroyStorage)

/-
One database's full apply task (the apply-scripts handler body, src/src/cli.ts
lines 210-282; identical in src/unnamed/part_001 lines 190-259 except that
the older revision reads `env` from the enclosing scope instead of passing it
to the factories):

    const [context, storage] = await Promise.all([
      db.createContext(env),
      db.createStorage(env),
    ]);
    ...
    try { switch (target) { ... await migrator.up(...) ... } }
    finally { await db.destroyContext(context); ... }
-/
def applyTask (db : DbModel) (env : String) (target : Target)
    (nameOpt : Option String) : Action :=
  andThen (parAll (db.createContext env) (db.createStorage env))
    (tryFinally (runTarget db target nameOpt) (teardown db))

/-
The cross-database sequential chain of the older apply-scripts handler
(src/unnamed/part_001):

    return migrationTasks.reduce((res, task) => res.then(task), Promise.resolve());

`res.then(task)` runs `task` only after `res` fulfills and skips it when
`res` rejects, which is exactly `andThen`.
-/
def runTasks (ts : List Action) : Action := ts.foldl andThen noopAct

/-
Database selection of the multi-database handlers (src/unnamed/part_001):

    Object.entries(dbs).filter(([dbName, _]) => optDbs.includes(dbName))

`entries` is the configuration map in `Object.entries` order.
-/
def selectDbs (entries : List (String × DbModel)) (optDbs : List String) :
    List (String × DbModel) :=
  entries.filter (fun p => optDbs.contains p.1)

def applyMulti (entries : List (String × DbModel)) (optDbs : List String)
    (env : String) (target : Target) (nameOpt : Option String) : Action :=
  runTasks ((selectDbs entries optDbs).map (fun p => applyTask p.2 env target nameOpt))

theorem foldl_andThen_ok (ts : List Action) :
    ∀ acc : Action, acc.result = Except.ok () →
      (∀ a ∈ ts, a.result = Except.ok ()) →
      ts.foldl andThen acc = ⟨acc.events ++ (ts.map Action.events).flatten, Except.ok ()⟩ := by
  induction ts with
  | nil =>
    intro acc hacc _
    cases acc with
    | mk ev res => cases hacc; simp
  | cons a rest ih =>
    intro acc hacc hall
    have ha : a.result = Except.ok () := hall a (by simp)
    have step : andThen acc a = ⟨acc.events ++ a.events, Except.ok ()⟩ := by
      simp [andThen, hacc, ha]
    rw [List.foldl_cons, step,
      ih ⟨acc.events ++ a.events, Except.ok ()⟩ rfl
        (fun b hb => hall b (by simp [hb]))]
    simp

theorem foldl_andThen_err (ts : List Action) :
    ∀ acc : Action, (∃ e, acc.result = Except.error e) →
      ts.foldl andThen acc = acc := by
  induction ts with
  | nil => intro acc _; simp
  | cons a rest ih =>
    intro acc ⟨e, he⟩
    have step : andThen acc a = acc := by simp [andThen, he]
    rw [List.foldl_cons, step]
    exact ih acc ⟨e, he⟩

/-- C3: the apply command over several selected databases runs their tasks
strictly sequentially.  If every selected task fulfills, the command's trace
is the concatenation of the tasks' traces in selection order — all of task
N's events, its teardown included, precede every event of task N+1.  If some
task rejects, the trace stops with that task's events: tasks after the
failing one are never started. -/
theorem applyMulti_sequential (entries : List (String × DbModel))
    (optDbs : List String) (env : String) (target : Target)
    (nameOpt : Option String)
    (tasks : List Action)
    (htasks : tasks = (selectDbs entries optDbs).map
      (fun p => applyTask p.2 env target nameOpt)) :
    ((∀ a ∈ tasks, a.result = Except.ok ()) →
      applyMulti entries optDbs env target nameOpt =
        ⟨(tasks.map Action.events).flatten, Except.ok ()⟩)
    ∧ (∀ pre act post e, tasks = pre ++ act :: post →
        (∀ b ∈ pre, b.result = Except.ok ()) →
        act.result = Except.error e →
        applyMulti entries optDbs env target nameOpt =
          ⟨(pre.map Action.events).flatten ++ act.events, Except.error e⟩) := by
  constructor
  · intro hall
    rw [applyMulti, ← htasks, runTasks, foldl_andThen_ok tasks noopAct rfl hall]
    simp [noopAct]
  · intro pre act post e hsplit hpre hact
    rw [applyMulti, ← htasks, runTasks, hsplit, List.foldl_append,
      foldl_andThen_ok pre noopAct rfl hpre, List.foldl_cons]
    have step : andThen ⟨noopAct.events ++ (pre.map Action.events).flatten, Except.ok ()⟩ act
        = ⟨(pre.map Action.events).flatten ++ act.events, Except.error e⟩ := by
      simp [andThen, noopAct, hact]
    rw [step, foldl_andThen_err post _ ⟨e, rfl⟩]

/-- C3 witness: two configured databases whose tasks both fulfill; the
combined trace is database A's full task trace (teardown included) followed
by database B's. -/
theorem applyMulti_sequential_witness :
    applyMulti
      [("A", ⟨["prod"], none, ["sql"], "sql",
          fun _ => ⟨["createContext A"], Except.ok ()⟩,
          fun _ => ⟨["createStorage A"], Except.ok ()⟩,
          fun _ => ⟨["engine A"], Except.ok ()⟩,
          ⟨["destroyContext A"], Except.ok ()⟩,
          some ⟨["destroyStorage A"], Except.ok ()⟩,
          fun _ => noopAct, fun _ => noopAct⟩),
       ("B", ⟨["prod"], none, ["sql"], "sql",
          fun _ => ⟨["createContext B"], Except.ok ()⟩,
          fun _ => ⟨["createStorage B"], Except.ok ()⟩,
          fun _ => ⟨["engine B"], Except.ok ()⟩,
          ⟨["destroyContext B"], Except.ok ()⟩,
          some ⟨["destroyStorage B"], Except.ok ()⟩,
          fun _ => noopAct, fun _ => noopAct⟩)]
      ["A", "B"] "prod" Target.remaining none =
    ⟨["createContext A", "createStorage A", "engine A",
      "destroyContext A", "destroyStorage A",
      "createContext B", "createStorage B", "engine B",
      "destroyContext B", "destroyStorage B"], Except.ok ()⟩ := by
  rw [(applyMulti_sequential _ ["A", "B"] "prod" Target.remaining none _ rfl).1
    (by decide)]
  decide

/-- C9: in the apply task, `createContext` and `createStorage` are both
started (both traces occur, in full, even when the sibling rejects, matching
`Promise.all`'s start-both semantics); if either rejects, the task rejects
with that error and neither `destroyContext` nor `destroyStorage` is ever
invoked — the trace is exactly the two acquisition traces. -/
theorem applyTask_acquisition_failure (db : DbModel) (env : String)
    (target : Target) (nameOpt : Option String) (e : String) :
    ((db.createContext env).result = Except.error e →
      applyTask db env target nameOpt =
        ⟨(db.createContext env).events ++ (db.createStorage env).events,
          Except.error e⟩)
    ∧ ((db.createContext env).result = Except.ok () →
       (db.createStorage env).result = Except.error e →
      applyTask db env target nameOpt =
        ⟨(db.createContext env).events ++ (db.createStorage env).events,
          Except.error e⟩) := by
  constructor
  · intro hc
    simp [applyTask, andThen, parAll, hc]
  · intro hc hs
    simp [applyTask, andThen, parAll, hc, hs]

/-- C1 amended theorem: in the apply task, when both acquisitions succeed and
the engine invocation rejects, `destroyContext` is always invoked before the
task settles; if `destroyContext` succeeds, `destroyStorage` (as defined by
the database, a no-op when absent) is invoked as well; if every cleanup call
fulfills, the original engine error — not anything else — is what
propagates.  If a cleanup call itself rejects, JavaScript try/finally
semantics make that cleanup error replace the engine error, and a
`destroyContext` rejection skips `destroyStorage`. -/
theorem applyTask_teardown_on_engine_error (db : DbModel) (env : String)
    (target : Target) (nameOpt : Option String) (e : String)
    (hcc : (db.createContext env).result = Except.ok ())
    (hcs : (db.createStorage env).result = Except.ok ())
    (heng : (runTarget db target nameOpt).result = Except.error e) :
    ((db.destroyContext.result = Except.ok () →
      (optAct db.destroyStorage).result = Except.ok () →
      applyTask db env target nameOpt =
        ⟨(db.createContext env).events ++ (db.createStorage env).events ++
          (runTarget db target nameOpt).events ++ db.destroyContext.events ++
          (optAct db.destroyStorage).events, Except.error e⟩))
    ∧ (∀ e2, db.destroyContext.result = Except.error e2 →
      applyTask db env target nameOpt =
        ⟨(db.createContext env).events ++ (db.createStorage env).events ++
          (runTarget db target nameOpt).events ++ db.destroyContext.events,
          Except.error e2⟩)
    ∧ (∀ e3, db.destroyContext.result = Except.ok () →
      (optAct db.destroyStorage).result = Except.error e3 →
      applyTask db env target nameOpt =
        ⟨(db.createContext env).events ++ (db.createStorage env).events ++
          (runTarget db target nameOpt).events ++ db.destroyContext.events ++
          (optAct db.destroyStorage).events, Except.error e3⟩) := by
  refine ⟨?_, ?_, ?_⟩
  · intro hdc hds
    simp [applyTask, andThen, parAll, tryFinally, teardown, hcc, hcs, heng,
      hdc, hds, List.append_assoc]
  · intro e2 hdc
    simp [applyTask, andThen, parAll, tryFinally, teardown, hcc, hcs, heng,
      hdc, List.append_assoc]
  · intro e3 hdc hds
    simp [applyTask, andThen, parAll, tryFinally, teardown, hcc, hcs, heng,
      hdc, hds, List.append_assoc]

/-- C1 witness: both acquisitions succeed, the engine rejects, every cleanup
call succeeds — both destroy events occur before the task settles and the
original engine error is what propagates. -/
theorem applyTask_teardown_on_engine_error_witness :
    applyTask
      ⟨["prod"], none, ["sql"], "sql",
        fun _ => ⟨["createContext"], Except.ok ()⟩,
        fun _ => ⟨["createStorage"], Except.ok ()⟩,
        fun _ => ⟨["engine"], Except.error "engine failed"⟩,
        ⟨["destroyContext"], Except.ok ()⟩,
        some ⟨["destroyStorage"], Except.ok ()⟩,
        fun _ => noopAct, fun _ => noopAct⟩
      "prod" Target.remaining none =
    ⟨["createContext", "createStorage", "engine",
      "destroyContext", "destroyStorage"], Except.error "engine failed"⟩ := by
  exact (applyTask_teardown_on_engine_error
    ⟨["prod"], none, ["sql"], "sql",
      fun _ => ⟨["createContext"], Except.ok ()⟩,
      fun _ => ⟨["createStorage"], Except.ok ()⟩,
      fun _ => ⟨["engine"], Except.error "engine failed"⟩,
      ⟨["destroyContext"], Except.ok ()⟩,
      some ⟨["destroyStorage"], Except.ok ()⟩,
      fun _ => noopAct, fun _ => noopAct⟩
    "prod" Target.remaining none
    "engine failed" rfl rfl rfl).1 rfl rfl

/-- C1 counterexample: a database whose `destroyContext` rejects while an
engine error is in flight.  The task settles with the cleanup error — not
the original engine error, contradicting the claim — and `destroyStorage`,
though the database defines it, is never invoked. -/
theorem applyTask_cleanup_masking_cx :
    applyTask
      ⟨["prod"], none, ["sql"], "sql",
        fun _ => ⟨["createContext"], Except.ok ()⟩,
        fun _ => ⟨["createStorage"], Except.ok ()⟩,
        fun _ => ⟨["engine"], Except.error "engine failed"⟩,
        ⟨["destroyContext"], Except.error "cleanup failed"⟩,
        some ⟨["destroyStorage"], Except.ok ()⟩,
        fun _ => noopAct, fun _ => noopAct⟩
      "prod" Target.remaining none =
      ⟨["createContext", "createStorage", "engine", "destroyContext"],
        Except.error "cleanup failed"⟩
    ∧ (applyTask
        ⟨["prod"], none, ["sql"], "sql",
          fun _ => ⟨["createContext"], Except.ok ()⟩,
          fun _ => ⟨["createStorage"], Except.ok ()⟩,
          fun _ => ⟨["engine"], Except.error "engine failed"⟩,
          ⟨["destroyContext"], Except.error "cleanup failed"⟩,
          some ⟨["destroyStorage"], Except.ok ()⟩,
          fun _ => noopAct, fun _ => noopAct⟩
        "prod" Target.remaining none).result ≠ Except.error "engine failed"
    ∧ "destroyStorage" ∉ (applyTask
        ⟨["prod"], none, ["sql"], "sql",
          fun _ => ⟨["createContext"], Except.ok ()⟩,
          fun _ => ⟨["createStorage"], Except.ok ()⟩,
          fun _ => ⟨["engine"], Except.error "engine failed"⟩,
          ⟨["destroyContext"], Except.error "cleanup failed"⟩,
          some ⟨["destroyStorage"], Except.ok ()⟩,
          fun _ => noopAct, fun _ => noopAct⟩
        "prod" Target.remaining none).events := by
  refine ⟨by decide, by decide, by decide⟩

/-
Per-database body of the clean handler (src/src/cli.ts lines 300-312; the
multi-database revision in src/unnamed/part_001 runs the same body per
selected database inside Promise.all):

    await dropDbAndDisconnect(env).catch(() => \x7b\x7d);
    await prepareDbAndDisconnect(env);
-/
def cleanTask (db : DbModel) (env : String) : Action :=
  andThen (swallow (db.dropDbAndDisconnect env)) (db.prepareDbAndDisconnect env)

/-- C5: for each selected database, clean attempts `dropDbAndDisconnect`
first (its events open the trace) and swallows any error it throws; then
`prepareDbAndDisconnect` is always invoked afterward, and its outcome —
success or failure — is exactly the outcome of the database's clean task. -/
theorem cleanTask_drop_then_prepare (db : DbModel) (env : String) :
    cleanTask db env =
      ⟨(db.dropDbAndDisconnect env).events ++ (db.prepareDbAndDisconnect env).events,
        (db.prepareDbAndDisconnect env).result⟩ := by
  simp [cleanTask, andThen, swallow]

/-- C10: multi-database commands select databases by filtering the loaded
configuration's entries, so the processing order is the configuration map's
entry order: the selected list is invariant under reordering (or any
membership-preserving change) of the `--db` flags, the sequential apply
command built on it is likewise invariant, and the selected entries appear
as a sublist of the configuration entries in their original order. -/
theorem applyMulti_order_from_config (entries : List (String × DbModel))
    (o1 o2 : List String) (env : String) (target : Target)
    (nameOpt : Option String)
    (h : ∀ p ∈ entries, o1.contains p.1 = o2.contains p.1) :
    selectDbs entries o1 = selectDbs entries o2
    ∧ applyMulti entries o1 env target nameOpt =
        applyMulti entries o2 env target nameOpt
    ∧ List.Sublist (selectDbs entries o1) entries := by
  have hsel : selectDbs entries o1 = selectDbs entries o2 :=
    List.filter_congr (fun p hp => h p hp)
  exact ⟨hsel, by rw [applyMulti, applyMulti, hsel], List.filter_sublist entries⟩

/-- C9 witness: a database whose storage factory rejects while its context
factory fulfills; the task rejects with the storage error, both factories'
events are in the trace, and no destroy event ever occurs. -/
theorem applyTask_acquisition_failure_witness :
    applyTask
      ⟨["prod"], none, ["sql"], "sql",
        fun _ => ⟨["createContext"], Except.ok ()⟩,
        fun _ => ⟨["createStorage"], Except.error "no storage"⟩,
        fun _ => ⟨["engine"], Except.ok ()⟩,
        ⟨["destroyContext"], Except.ok ()⟩,
        some ⟨["destroyStorage"], Except.ok ()⟩,
        fun _ => noopAct, fun _ => noopAct⟩
      "prod" Target.remaining none =
    ⟨["createContext", "createStorage"], Except.error "no storage"⟩ := by
  exact (applyTask_acquisition_failure _ "prod" Target.remaining none
    "no storage").2 rfl rfl

/-
A small concrete two-database configuration used by witnesses.
-/
def sampleDb (tag : String) : DbModel :=
  ⟨["prod"], none, ["sql"], "sql",
    fun _ => ⟨["createContext " ++ tag], Except.ok ()⟩,
    fun _ => ⟨["createStorage " ++ tag], Except.ok ()⟩,
    fun _ => ⟨["engine " ++ tag], Except.ok ()⟩,
    ⟨["destroyContext " ++ tag], Except.ok ()⟩,
    some ⟨["destroyStorage " ++ tag], Except.ok ()⟩,
    fun _ => ⟨["drop " ++ tag], Except.ok ()⟩,
    fun _ => ⟨["prepare " ++ tag], Except.ok ()⟩⟩

def sampleEntries : List (String × DbModel) :=
  [("A", sampleDb "A"), ("B", sampleDb "B")]

/-- C10 witness: with databases configured in the order A, B, giving the
`--db` flags as B, A selects and processes them in configuration order all
the same. -/
theorem applyMulti_order_from_config_witness :
    selectDbs sampleEntries ["B", "A"] = selectDbs sampleEntries ["A", "B"]
    ∧ applyMulti sampleEntries ["B", "A"] "prod" Target.remaining none =
        applyMulti sampleEntries ["A", "B"] "prod" Target.remaining none
    ∧ List.Sublist (selectDbs sampleEntries ["B", "A"]) sampleEntries := by
  exact applyMulti_order_from_config sampleEntries ["B", "A"] ["A", "B"]
    "prod" Target.remaining none (by decide)

/-
Script namer and selector.  The script-generator module exporting
`scriptTypes`, `nameScript` and `shouldRun` is imported by the CLI but is
not among the repository sources here, so these are modelled from the
specification (§4.1, §4.2).
-/

inductive ScriptType
  | migration
  | seed
deriving DecidableEq

/-- Modelled from the spec: the script-generator module (absent from the
sources) exports `scriptTypes`, the two admissible script kinds used as the
`type` positional's choices in the add command. -/
def scriptTypes : List ScriptType := [ScriptType.migration, ScriptType.seed]

/-- Modelled from the spec: `nameScript` of the absent script-generator
module.  Per §4.1 it emits a type marker, then — for seeds only — the
environment marker, then the free-form name, with the sortable timestamp
prefix prepended later by the file-creation mechanism; migrations never
carry an environment marker (the environment argument, `undefined` for a
migration by the upstream validation, is ignored), seeds carry exactly one.
Dot-separated fields realize the spec's grammar concretely. -/
def nameScript (type : ScriptType) (env : Option String) (name : String) : String :=
  match type with
  | ScriptType.migration => "migration." ++ name
  | ScriptType.seed => "seed." ++ env.getD "" ++ "." ++ name

/-- Splitting a character list at a separator; `splitCh sep l` is never
empty and concatenating its pieces interleaved with `sep` reproduces `l`. -/
def splitCh (sep : Char) : List Char → List (List Char)
  | [] => [[]]
  | c :: rest =>
    if c = sep then [] :: splitCh sep rest
    else (c :: (splitCh sep rest).headD []) :: (splitCh sep rest).tail

/-- The final path segment (the part after the last slash). -/
def baseNameL (l : List Char) : List Char := (splitCh '/' l).getLastD []

/-- Scanning the dot-separated fields of a filename for the namer's type
marker: `some none` for a migration marker, `some (some e)` for a seed
marker with environment field `e`, `none` when no marker is found (a
malformed, non-script filename). -/
def findMarker : List (List Char) → Option (Option (List Char))
  | [] => none
  | p :: rest =>
    if p = "migration".toList then some none
    else if p = "seed".toList then rest.head?.map some
    else findMarker rest

/-- Modelled from the spec: `shouldRun` of the absent script-generator
module.  Per §4.2 it takes the target environment, the database's supported
formats and a file path; it parses the trailing extension and returns false
unless it is a supported format (case-sensitive exact match); it then parses
the namer's encoding out of the filename: a migration marker makes the
script eligible under every environment, a seed marker makes it eligible
exactly when its environment field equals the target, and a filename
matching neither (malformed) is excluded rather than erroring. -/
def markerOk (targetEnv : String) : Option (Option (List Char)) → Bool
  | some none => true
  | some (some e) => e == targetEnv.toList
  | none => false

def shouldRun (targetEnv : String) (formats : List String) (filePath : String) : Bool :=
  let parts := splitCh '.' (baseNameL filePath.toList)
  formats.any (fun f => f.toList == parts.getLastD []) &&
    markerOk targetEnv (findMarker parts.dropLast)

/-
CLI argument-validation and command layer (src/src/cli.ts).  A yargs
`check` that throws is modelled as `Except.error` with the thrown message;
a command whose check fails never runs its handler, so its action is
`⟨[], Except.error msg⟩` — no event is ever emitted.  JavaScript string
truthiness (`undefined` and `""` are falsy) is `truthyStr`.
-/

def truthyStr : Option String → Bool
  | none => false
  | some s => !(s == "")

/-- The `getEnv` helper of src/src/cli.ts: `argv.env ?? db.defaultEnvironment`
(`??` fires on `undefined` only, so an explicit empty string is kept). -/
def getEnv (db : DbModel) (envFlag : Option String) : Option String :=
  match envFlag with
  | some e => some e
  | none => db.defaultEnvironment

def makeInvalidEnvironmentError (db : DbModel) (env : String) : String :=
  "Environment \"" ++ env ++ "\" is not a valid environment. " ++
    "Valid environments are: " ++
    String.intercalate ", " db.supportedEnvironments ++ "."

def seedEnvRequiredMsg : String :=
  "Environment is required when adding a seed file, to indicate" ++
    "in which environment the seed should be applied."

def migrationEnvForbiddenMsg : String :=
  "You cannot provide an environment when creating a migration; " ++
    "every migration is run in every environment for schema consistency."

def formatUnsupportedMsg (dbName fmt : String) : String :=
  "The db \"" ++ dbName ++ "\" doesn't support ." ++ fmt ++
    " files as scripts."

def nameWithGeneralTargetMsg : String :=
  "Can't provide a general script/set of scripts to run (with " ++
    "\"next\" or \"remaining\") and then also provide the name of a " ++
    "specific script."

def nameRequiredMsg : String :=
  "Must provide a script name when you use \"only\"/\"until\" to " ++
    "apply (only or up to) a specific script."

/-- A yargs command: the builder's `check` runs during argument parsing;
only if it passes does the handler run. -/
def runChecked (check : Except String Unit) (handler : Action) : Action :=
  match check with
  | Except.error e => ⟨[], Except.error e⟩
  | Except.ok _ => handler

def needsSpecificScript (target : Target) : Bool :=
  target == Target.only || target == Target.until_

/-- The apply-scripts builder's check: target/name consistency first, then
environment membership.  The env flag is demanded, so `argv.env ?? default`
resolves to the flag itself. -/
def applyCheck (db : DbModel) (target : Target) (nameOpt : Option String)
    (envFlag : String) : Except String Unit :=
  if !(needsSpecificScript target) && truthyStr nameOpt then
    Except.error nameWithGeneralTargetMsg
  else if needsSpecificScript target && !(truthyStr nameOpt) then
    Except.error nameRequiredMsg
  else if !(db.supportedEnvironments.contains ((getEnv db (some envFlag)).getD "")) then
    Except.error (makeInvalidEnvironmentError db ((getEnv db (some envFlag)).getD ""))
  else Except.ok ()

def applyCommand (db : DbModel) (target : Target) (nameOpt : Option String)
    (envFlag : String) : Action :=
  runChecked (applyCheck db target nameOpt envFlag)
    (applyTask db envFlag target nameOpt)

/-- The common check of the clean, drop and create builders: the resolved
environment must be a supported one. -/
def envCheck (db : DbModel) (envFlag : String) : Except String Unit :=
  if !(db.supportedEnvironments.contains ((getEnv db (some envFlag)).getD "")) then
    Except.error (makeInvalidEnvironmentError db ((getEnv db (some envFlag)).getD ""))
  else Except.ok ()

def cleanCommand (db : DbModel) (envFlag : String) : Action :=
  runChecked (envCheck db envFlag) (cleanTask db envFlag)

def dropCommand (db : DbModel) (envFlag : String) : Action :=
  runChecked (envCheck db envFlag) (db.dropDbAndDisconnect envFlag)

def createCommand (db : DbModel) (envFlag : String) : Action :=
  runChecked (envCheck db envFlag) (db.prepareDbAndDisconnect envFlag)

/-- The add builder's check, in source order: env-presence per script type,
then environment membership (skipped when the resolved environment is
falsy), then format membership. -/
def addCheck (db : DbModel) (dbName : String) (type : ScriptType)
    (envFlag : Option String) (formatFlag : Option String) :
    Except String Unit :=
  if type == ScriptType.seed && !(truthyStr envFlag) then
    Except.error seedEnvRequiredMsg
  else if type == ScriptType.migration && truthyStr envFlag then
    Except.error migrationEnvForbiddenMsg
  else if truthyStr (getEnv db envFlag) &&
      !(db.supportedEnvironments.contains ((getEnv db envFlag).getD "")) then
    Except.error (makeInvalidEnvironmentError db ((getEnv db envFlag).getD ""))
  else if formatFlag.isSome &&
      !(db.supportedScriptFormats.contains (formatFlag.getD "")) then
    Except.error (formatUnsupportedMsg dbName (formatFlag.getD ""))
  else Except.ok ()

/-- The add handler: `migrator.create` writes one file named by `nameScript`
plus the chosen extension (`format ?? defaultScriptFormat`), with the
timestamp prefix substituted by umzug at creation.  The write is the single
observable event. -/
def addHandler (db : DbModel) (type : ScriptType) (envFlag : Option String)
    (name : String) (formatFlag : Option String) : Action :=
  ⟨["createFile " ++
      nameScript type (getEnv db envFlag) name ++ "." ++
      (formatFlag.getD db.defaultScriptFormat)], Except.ok ()⟩

def addCommand (db : DbModel) (dbName : String) (type : ScriptType)
    (envFlag : Option String) (name : String) (formatFlag : Option String) :
    Action :=
  runChecked (addCheck db dbName type envFlag formatFlag)
    (addHandler db type envFlag name formatFlag)

/-
Supporting lemmas about `splitCh` and string decomposition.
-/

theorem toList_append_str (s t : String) :
    (s ++ t).toList = s.toList ++ t.toList := by
  simp [String.toList]

theorem toList_beq (s t : String) : (s.toList == t.toList) = (s == t) := by
  by_cases h : s = t
  · subst h; simp
  · have h2 : s.toList ≠ t.toList := fun hc => h (String.toList_inj.mp hc)
    simp [beq_eq_false_iff_ne.mpr h]
    exact h2

theorem splitCh_ne_nil (sep : Char) : ∀ l, splitCh sep l ≠ []
  | [] => by simp [splitCh]
  | c :: rest => by
    by_cases hc : c = sep <;> simp [splitCh, hc]

theorem splitCh_no_sep (sep : Char) : ∀ l : List Char, sep ∉ l → splitCh sep l = [l] := by
  intro l
  induction l with
  | nil => intro _; rfl
  | cons c rest ih =>
    intro h
    have hc : c ≠ sep := fun e => h (by simp [e])
    have hr : sep ∉ rest := fun e => h (by simp [e])
    simp [splitCh, hc, ih hr]

theorem splitCh_append_head (sep : Char) (b : List Char) :
    ∀ a : List Char, sep ∉ a →
      splitCh sep (a ++ sep :: b) = a :: splitCh sep b := by
  intro a
  induction a with
  | nil =>
    intro _
    simp [splitCh]
  | cons c arest ih =>
    intro h
    have hc : c ≠ sep := fun e => h (by simp [e])
    have hr : sep ∉ arest := fun e => h (by simp [e])
    simp only [List.cons_append, splitCh, hc, if_neg, List.append_eq]
    rw [ih hr]
    simp

theorem splitCh_last (sep : Char) (b : List Char) (hb : sep ∉ b) :
    ∀ a : List Char, (splitCh sep (a ++ sep :: b)).getLast? = some b ∧
      2 ≤ (splitCh sep (a ++ sep :: b)).length := by
  intro a
  induction a with
  | nil =>
    simp [splitCh, splitCh_no_sep sep b hb]
  | cons c arest ih =>
    obtain ⟨ih1, ih2⟩ := ih
    cases h : splitCh sep (arest ++ sep :: b) with
    | nil => exact absurd h (splitCh_ne_nil _ _)
    | cons hh tt =>
      rw [h] at ih1 ih2
      have htt : tt ≠ [] := by
        intro e
        rw [e] at ih2
        simp at ih2
      by_cases hc : c = sep
      · rw [List.cons_append, splitCh, if_pos hc, h]
        constructor
        · rw [List.getLast?_cons_cons]
          exact ih1
        · simp
      · rw [List.cons_append, splitCh, if_neg hc, h]
        cases tt with
        | nil => exact absurd rfl htt
        | cons t1 ts =>
          simp only [List.headD_cons, List.tail_cons]
          constructor
          · rw [List.getLast?_cons_cons]
            rw [List.getLast?_cons_cons] at ih1
            exact ih1
          · simp

theorem baseNameL_no_slash (l : List Char) (h : ('/' : Char) ∉ l) :
    baseNameL l = l := by
  simp [baseNameL, splitCh_no_sep _ l h]

/-- C4: for every filename produced by `nameScript` (with dot-free, slash-free
environment and extension fields and a slash-free chosen name) carrying an
extension among the supported formats, `shouldRun` accepts a migration under
every queried environment, and accepts a seed exactly when the environment
embedded in the filename equals the queried environment. -/
theorem nameScript_shouldRun (targetEnv fname ext envS : String)
    (formats : List String)
    (hf : ext ∈ formats)
    (hed : ('.' : Char) ∉ ext.toList) (hes : ('/' : Char) ∉ ext.toList)
    (hfs : ('/' : Char) ∉ fname.toList) :
    shouldRun targetEnv formats
      (nameScript ScriptType.migration none fname ++ "." ++ ext) = true
    ∧ (('.' : Char) ∉ envS.toList → ('/' : Char) ∉ envS.toList →
       (shouldRun targetEnv formats
          (nameScript ScriptType.seed (some envS) fname ++ "." ++ ext) = true
        ↔ envS = targetEnv)) := by
  have hany : formats.any (fun f => f.toList == ext.toList) = true :=
    List.any_eq_true.mpr ⟨ext, hf, by simp⟩
  obtain ⟨hlast, hlen⟩ := splitCh_last '.' ext.toList hed fname.toList
  cases hrest : splitCh '.' (fname.toList ++ '.' :: ext.toList) with
  | nil => exact absurd hrest (splitCh_ne_nil _ _)
  | cons r1 rest1 =>
    cases rest1 with
    | nil => rw [hrest] at hlen; simp at hlen
    | cons r2 rs =>
      rw [hrest] at hlast
      constructor
      · -- migration filenames: eligible regardless of the queried environment
        have hpath : (nameScript ScriptType.migration none fname ++ "." ++ ext).toList
            = "migration".toList ++ '.' :: (fname.toList ++ '.' :: ext.toList) := by
          simp [nameScript, toList_append_str]
        have hnos : ('/' : Char) ∉
            "migration".toList ++ '.' :: (fname.toList ++ '.' :: ext.toList) := by
          simp only [List.mem_append, List.mem_cons]
          rintro (hm | hm | hm | hm | hm) <;>
            first
            | exact absurd hm (by decide)
            | exact hfs hm
            | exact hes hm
        have hsplit : splitCh '.' ("migration".toList ++ '.' ::
            (fname.toList ++ '.' :: ext.toList))
            = "migration".toList :: r1 :: r2 :: rs := by
          rw [splitCh_append_head '.' _ _ (by decide), hrest]
        have hgl : ("migration".toList :: r1 :: r2 :: rs).getLastD [] = ext.toList := by
          rw [List.getLastD_eq_getLast?, List.getLast?_cons_cons, hlast]
          rfl
        have hm1 : findMarker ("migration".toList :: (r1 :: r2 :: rs).dropLast)
            = some none := by
          rw [findMarker, if_pos rfl]
        simp only [shouldRun]
        rw [hpath, baseNameL_no_slash _ hnos, hsplit, hgl, List.dropLast_cons₂,
          hm1, hany]
        rfl
      · -- seed filenames: eligible exactly in the embedded environment
        intro hend hens
        have hpath : (nameScript ScriptType.seed (some envS) fname ++ "." ++ ext).toList
            = "seed".toList ++ '.' ::
              (envS.toList ++ '.' :: (fname.toList ++ '.' :: ext.toList)) := by
          simp [nameScript, toList_append_str]
        have hnos : ('/' : Char) ∉
            "seed".toList ++ '.' ::
              (envS.toList ++ '.' :: (fname.toList ++ '.' :: ext.toList)) := by
          simp only [List.mem_append, List.mem_cons]
          rintro (hm | hm | hm | hm | hm | hm | hm) <;>
            first
            | exact absurd hm (by decide)
            | exact hfs hm
            | exact hes hm
            | exact hens hm
        have hsplit : splitCh '.' ("seed".toList ++ '.' ::
            (envS.toList ++ '.' :: (fname.toList ++ '.' :: ext.toList)))
            = "seed".toList :: envS.toList :: r1 :: r2 :: rs := by
          rw [splitCh_append_head '.' _ _ (by decide),
            splitCh_append_head '.' _ _ hend, hrest]
        have hgl : ("seed".toList :: envS.toList :: r1 :: r2 :: rs).getLastD []
            = ext.toList := by
          rw [List.getLastD_eq_getLast?, List.getLast?_cons_cons,
            List.getLast?_cons_cons, hlast]
          rfl
        have hm2 : findMarker ("seed".toList :: envS.toList ::
            (r1 :: r2 :: rs).dropLast) = some (some envS.toList) := by
          rw [findMarker, if_neg (by decide), if_pos rfl]
          rfl
        simp only [shouldRun]
        rw [hpath, baseNameL_no_slash _ hnos, hsplit, hgl, List.dropLast_cons₂,
          List.dropLast_cons₂, hm2, hany]
        simp [markerOk, toList_beq]
        exact String.toList_inj

/-- C4 witness: a concrete migration filename is eligible in any environment
and a concrete seed filename is eligible exactly in its own environment. -/
theorem nameScript_shouldRun_witness :
    shouldRun "prod" ["sql", "js"]
      (nameScript ScriptType.migration none "create-users" ++ "." ++ "sql") = true
    ∧ (shouldRun "demo" ["sql", "js"]
        (nameScript ScriptType.seed (some "demo") "fill-users" ++ "." ++ "sql") = true
       ↔ "demo" = "demo") := by
  constructor
  · exact (nameScript_shouldRun "prod" "create-users" "sql" "demo" ["sql", "js"]
      (by decide) (by decide) (by decide) (by decide)).1
  · exact (nameScript_shouldRun "demo" "fill-users" "sql" "demo" ["sql", "js"]
      (by decide) (by decide) (by decide) (by decide)).2 (by decide) (by decide)

/-
Substring search, used to state whether an error message names a given
string.
-/

def headMatch : List Char → List Char → Bool
  | [], _ => true
  | _ :: _, [] => false
  | a :: as, b :: bs => a == b && headMatch as bs

def hasSub (needle : List Char) : List Char → Bool
  | [] => headMatch needle []
  | c :: rest => headMatch needle (c :: rest) || hasSub needle rest

theorem headMatch_self_append (n : List Char) :
    ∀ b, headMatch n (n ++ b) = true := by
  induction n with
  | nil => intro b; rfl
  | cons a as ih => intro b; simp [headMatch, ih b]

theorem hasSub_head (n l : List Char) (h : headMatch n l = true) :
    hasSub n l = true := by
  cases l with
  | nil => simpa [hasSub] using h
  | cons c rest => simp [hasSub, h]

theorem hasSub_of_append (n a b : List Char) :
    hasSub n (a ++ (n ++ b)) = true := by
  induction a with
  | nil => exact hasSub_head n (n ++ b) (headMatch_self_append n b)
  | cons c arest ih =>
    rw [List.cons_append]
    simp [hasSub, ih]

theorem hasSub_of_parts (n l a b : List Char) (h : l = a ++ (n ++ b)) :
    hasSub n l = true := h ▸ hasSub_of_append n a b

theorem makeInvalidEnvironmentError_names (db : DbModel) (env : String) :
    hasSub env.toList (makeInvalidEnvironmentError db env).toList = true
    ∧ hasSub (String.intercalate ", " db.supportedEnvironments).toList
        (makeInvalidEnvironmentError db env).toList = true := by
  constructor
  · refine hasSub_of_parts _ _ "Environment \"".toList
      ("\" is not a valid environment. " ++ "Valid environments are: " ++
        String.intercalate ", " db.supportedEnvironments ++ ".").toList ?_
    simp [makeInvalidEnvironmentError, toList_append_str]
  · refine hasSub_of_parts _ _
      ("Environment \"".toList ++ env.toList ++
        "\" is not a valid environment. ".toList ++
        "Valid environments are: ".toList)
      ".".toList ?_
    simp [makeInvalidEnvironmentError, toList_append_str]

/-- C6 amended theorem: for apply, clean, drop and create — whose only other
builder check is apply's target/name consistency rule, assumed to pass —
resolving to an environment outside the database's supported list fails
during argument validation, before any event is emitted, with the message
built by `makeInvalidEnvironmentError`; for add, the same holds provided the
type/environment-presence rule passes (seed with a truthy env flag,
migration without one) and the resolved environment is truthy; and that
message names the invalid environment and lists the valid set. -/
theorem resolvedEnvironment_validation :
    (∀ (db : DbModel) (target : Target) (nameOpt : Option String)
        (envFlag : String),
      truthyStr nameOpt = needsSpecificScript target →
      db.supportedEnvironments.contains envFlag = false →
      applyCommand db target nameOpt envFlag =
        ⟨[], Except.error (makeInvalidEnvironmentError db envFlag)⟩)
    ∧ (∀ (db : DbModel) (envFlag : String),
      db.supportedEnvironments.contains envFlag = false →
      cleanCommand db envFlag =
        ⟨[], Except.error (makeInvalidEnvironmentError db envFlag)⟩)
    ∧ (∀ (db : DbModel) (envFlag : String),
      db.supportedEnvironments.contains envFlag = false →
      dropCommand db envFlag =
        ⟨[], Except.error (makeInvalidEnvironmentError db envFlag)⟩)
    ∧ (∀ (db : DbModel) (envFlag : String),
      db.supportedEnvironments.contains envFlag = false →
      createCommand db envFlag =
        ⟨[], Except.error (makeInvalidEnvironmentError db envFlag)⟩)
    ∧ (∀ (db : DbModel) (dbName : String) (type : ScriptType)
        (envFlag : Option String) (name : String) (formatFlag : Option String)
        (env : String),
      (type = ScriptType.seed → truthyStr envFlag = true) →
      (type = ScriptType.migration → truthyStr envFlag = false) →
      getEnv db envFlag = some env → env ≠ "" →
      db.supportedEnvironments.contains env = false →
      addCommand db dbName type envFlag name formatFlag =
        ⟨[], Except.error (makeInvalidEnvironmentError db env)⟩)
    ∧ (∀ (db : DbModel) (env : String),
      hasSub env.toList (makeInvalidEnvironmentError db env).toList = true
      ∧ hasSub (String.intercalate ", " db.supportedEnvironments).toList
          (makeInvalidEnvironmentError db env).toList = true) := by
  refine ⟨?_, ?_, ?_, ?_, ?_, makeInvalidEnvironmentError_names⟩
  · intro db target nameOpt envFlag h hcont
    have hmem : envFlag ∉ db.supportedEnvironments := by simpa using hcont
    cases hns : needsSpecificScript target <;>
      rw [hns] at h <;>
      simp [applyCommand, runChecked, applyCheck, getEnv, hns, h, hmem]
  · intro db envFlag hcont
    have hmem : envFlag ∉ db.supportedEnvironments := by simpa using hcont
    simp [cleanCommand, runChecked, envCheck, getEnv, hmem]
  · intro db envFlag hcont
    have hmem : envFlag ∉ db.supportedEnvironments := by simpa using hcont
    simp [dropCommand, runChecked, envCheck, getEnv, hmem]
  · intro db envFlag hcont
    have hmem : envFlag ∉ db.supportedEnvironments := by simpa using hcont
    simp [createCommand, runChecked, envCheck, getEnv, hmem]
  · intro db dbName type envFlag name formatFlag env h1 h2 hres hne hcont
    cases type with
    | seed =>
      have htr : truthyStr envFlag = true := h1 rfl
      cases envFlag with
      | none => simp [truthyStr] at htr
      | some s =>
        have hs : s = env := by
          simpa [getEnv] using hres
        subst hs
        have hmem : s ∉ db.supportedEnvironments := by simpa using hcont
        simp [addCommand, runChecked, addCheck, getEnv, htr, hmem]
    | migration =>
      have htr : truthyStr envFlag = false := h2 rfl
      cases envFlag with
      | some s =>
        have hs : s = env := by
          simpa [getEnv] using hres
        subst hs
        simp [truthyStr] at htr
        exact absurd htr hne
      | none =>
        have hdef : db.defaultEnvironment = some env := by
          simpa [getEnv] using hres
        have hmem : env ∉ db.supportedEnvironments := by simpa using hcont
        simp [addCommand, runChecked, addCheck, getEnv, hdef, truthyStr, hne,
          hmem]

/-- C6 amended-theorem witness: a database supporting only prod rejects
`--env bogus` for apply and for a seed add, before any event, with the
invalid-environment message. -/
theorem resolvedEnvironment_validation_witness :
    applyCommand (sampleDb "A") Target.remaining none "bogus" =
      ⟨[], Except.error (makeInvalidEnvironmentError (sampleDb "A") "bogus")⟩
    ∧ addCommand (sampleDb "A") "A" ScriptType.seed (some "bogus") "users" none =
      ⟨[], Except.error (makeInvalidEnvironmentError (sampleDb "A") "bogus")⟩ := by
  constructor
  · exact resolvedEnvironment_validation.1 (sampleDb "A") Target.remaining none
      "bogus" (by decide) (by decide)
  · exact resolvedEnvironment_validation.2.2.2.2.1 (sampleDb "A") "A"
      ScriptType.seed (some "bogus") "users" none "bogus"
      (fun _ => by decide) (fun h => nomatch h) rfl (by decide) (by decide)

/-- C6 counterexample: `add` with type migration and `--env bogus` on a
database supporting only prod.  The resolved environment bogus is
unsupported, and the command does fail during validation before any event —
but with the migration-forbids-environment message, which is not the
invalid-environment message and does not name bogus, contradicting the
claim's message requirement. -/
theorem invalidEnvironment_message_cx :
    (sampleDb "A").supportedEnvironments.contains "bogus" = false
    ∧ getEnv (sampleDb "A") (some "bogus") = some "bogus"
    ∧ addCommand (sampleDb "A") "A" ScriptType.migration (some "bogus") "nm" none =
        ⟨[], Except.error migrationEnvForbiddenMsg⟩
    ∧ migrationEnvForbiddenMsg ≠ makeInvalidEnvironmentError (sampleDb "A") "bogus"
    ∧ hasSub "bogus".toList migrationEnvForbiddenMsg.toList = false := by
  refine ⟨by decide, by decide, by decide, by decide, by decide⟩

/-- C7: the add command is rejected during argument validation — no event,
in particular no file write, ever happens — when a seed is requested without
a truthy environment flag, and when a migration is requested with one. -/
theorem addCommand_type_env_guard (db : DbModel) (dbName name : String)
    (envFlag formatFlag : Option String) :
    (truthyStr envFlag = false →
      addCommand db dbName ScriptType.seed envFlag name formatFlag =
        ⟨[], Except.error seedEnvRequiredMsg⟩)
    ∧ (truthyStr envFlag = true →
      addCommand db dbName ScriptType.migration envFlag name formatFlag =
        ⟨[], Except.error migrationEnvForbiddenMsg⟩) := by
  constructor
  · intro h
    simp [addCommand, runChecked, addCheck, h]
  · intro h
    simp [addCommand, runChecked, addCheck, h]

/-- C7 witness: a seed without an environment flag and a migration with one
are both rejected with no event emitted. -/
theorem addCommand_type_env_guard_witness :
    addCommand (sampleDb "A") "A" ScriptType.seed none "users" none =
      ⟨[], Except.error seedEnvRequiredMsg⟩
    ∧ addCommand (sampleDb "A") "A" ScriptType.migration (some "demo") "users" none =
      ⟨[], Except.error migrationEnvForbiddenMsg⟩ := by
  exact ⟨(addCommand_type_env_guard (sampleDb "A") "A" "users" none none).1 rfl,
    (addCommand_type_env_guard (sampleDb "A") "A" "users" (some "demo") none).2
      (by decide)⟩

end Migrator
